import Mathlib

/-!
Shallow embedding of `transcribe.py`, a CLI tool that converts a media file
into timestamped text. Python floats are modelled as exact rationals (every
IEEE double denotes a rational); file writes are modelled as the string the
writer appends to the file. Python `str.strip` is modelled by `String.trim`
(both remove leading/trailing ASCII whitespace). Rational arithmetic uses
the executable `Rat` primitives (`Rat.floor`, comparison by `Rat.blt`) so
that every definition evaluates by kernel reduction; bridge lemmas relate
them to the Mathlib order and floor notions used in the theorems.
-/

/-- A transcript segment: `{"start": ..., "end": ..., "text": ...}`
as produced by both backends (source lines 84 and 96). -/
structure Segment where
  start : ℚ
  «end» : ℚ
  text : String
deriving DecidableEq

/-- Python `max(a, b)` on two numbers: returns `b` when `a < b`, else `a`. -/
def pymax (a b : ℚ) : ℚ := if a < b then b else a

/-- Round to the nearest integer, ties to even: the rounding CPython's
`timedelta` constructor applies to the microsecond remainder. -/
def roundHalfEven (q : ℚ) : ℤ :=
  let f := q - (q.floor : ℚ)
  if f < 1/2 then q.floor
  else if 1/2 < f then q.floor + 1
  else if q.floor % 2 = 0 then q.floor else q.floor + 1

/-- Models `timedelta(seconds=max(0.0, seconds)).total_seconds()`:
`timedelta` stores the clamped value rounded to whole microseconds
(ties to even), and `total_seconds` returns those microseconds as
seconds again. -/
def tdTotalSeconds (seconds : ℚ) : ℚ :=
  ((roundHalfEven (pymax 0 seconds * 1000000) : ℤ) : ℚ) / 1000000

/-- Left-pad a string with `'0'` up to width `w` (longer strings are kept
whole), as Python's zero-padded width format specs do. -/
def zfill (w : ℕ) (s : String) : String :=
  String.mk (List.replicate (w - s.length) '0') ++ s

/-- Models the `f"{n:02d}"` format spec for a nonnegative int. -/
def pad2 (n : ℕ) : String := zfill 2 (Nat.repr n)

/-- Models the `f"{n:03d}"` format spec for a nonnegative int. -/
def pad3 (n : ℕ) : String := zfill 3 (Nat.repr n)

/-- Models `format_ts_srt` (source lines 9-16): clamp, decompose, render with a
comma before the milliseconds. `int` applied to the nonnegative
`total_seconds()` value truncates, i.e. floors. -/
def format_ts_srt (seconds : ℚ) : String :=
  let ts := tdTotalSeconds seconds
  let total_seconds : ℕ := ts.floor.toNat
  let hours := total_seconds / 3600
  let minutes := (total_seconds % 3600) / 60
  let secs := total_seconds % 60
  let millis : ℕ := ((ts - (total_seconds : ℚ)) * 1000).floor.toNat
  pad2 hours ++ ":" ++ pad2 minutes ++ ":" ++ pad2 secs ++ "," ++ pad3 millis

/-- Models `format_ts_vtt` (source lines 19-26): identical to `format_ts_srt`
except the separator before the milliseconds is a period. -/
def format_ts_vtt (seconds : ℚ) : String :=
  let ts := tdTotalSeconds seconds
  let total_seconds : ℕ := ts.floor.toNat
  let hours := total_seconds / 3600
  let minutes := (total_seconds % 3600) / 60
  let secs := total_seconds % 60
  let millis : ℕ := ((ts - (total_seconds : ℚ)) * 1000).floor.toNat
  pad2 hours ++ ":" ++ pad2 minutes ++ ":" ++ pad2 secs ++ "." ++ pad3 millis

/-- Models `write_txt` (source lines 29-34): the file content is the writes of the
loop in order, one line per segment with non-empty trimmed text. -/
def write_txt : List Segment → String
  | [] => ""
  | seg :: rest =>
    let text := seg.text.trim
    if text = "" then write_txt rest else text ++ "\n" ++ write_txt rest

/-- The loop of `write_srt` (source lines 44-50): `idx` is the value
`enumerate(segments, start=1)` pairs with the head segment. The index is
advanced for every segment, also for the skipped ones. -/
def srtLoop : ℕ → List Segment → String
  | _, [] => ""
  | idx, seg :: rest =>
    let start := format_ts_srt seg.start
    let stop := format_ts_srt seg.«end»
    let text := seg.text.trim
    if text = "" then srtLoop (idx + 1) rest
    else
      Nat.repr idx ++ "\n" ++ start ++ " --> " ++ stop ++ "\n" ++ text ++ "\n\n" ++
        srtLoop (idx + 1) rest

/-- Models `write_srt` (source lines 42-50): SubRip output. -/
def write_srt (segments : List Segment) : String := srtLoop 1 segments

/-- The loop of `write_vtt` (source lines 56-62). -/
def vttLoop : List Segment → String
  | [] => ""
  | seg :: rest =>
    let start := format_ts_vtt seg.start
    let stop := format_ts_vtt seg.«end»
    let text := seg.text.trim
    if text = "" then vttLoop rest
    else start ++ " --> " ++ stop ++ "\n" ++ text ++ "\n\n" ++ vttLoop rest

/-- Models `write_vtt` (source lines 53-62): header then the un-indexed blocks. -/
def write_vtt (segments : List Segment) : String := "WEBVTT\n\n" ++ vttLoop segments

/-- Index of the last occurrence of `c`, or `-1` when absent: Python's
`str.rfind` for a single-character needle. -/
def lastIdxOf (c : Char) : List Char → ℤ
  | [] => -1
  | a :: rest =>
    let r := lastIdxOf c rest
    if r ≥ 0 then r + 1 else if a = c then 0 else -1

/-- The scan of CPython's `genericpath._splitext`: is there a character
other than `'.'` strictly between `sepIndex` and `dotIndex`? If not, the
final path component consists of leading dots only and the trailing group
does not count as an extension. -/
def hasRealName (chars : List Char) (sepIndex dotIndex : ℤ) : Bool :=
  (List.range chars.length).any fun k =>
    decide (sepIndex < (k : ℤ)) && decide ((k : ℤ) < dotIndex) &&
      (chars.getD k '.' != '.')

/-- Models `os.path.splitext` for POSIX paths (`sep='/'`, `extsep='.'`), as called
on source line 66: split at the last dot of the final component, except
that a final component made of leading dots has no extension. -/
def splitext (p : String) : String × String :=
  let chars := p.data
  let sepIndex := lastIdxOf '/' chars
  let dotIndex := lastIdxOf '.' chars
  if sepIndex < dotIndex then
    if hasRealName chars sepIndex dotIndex then
      (String.mk (chars.take dotIndex.toNat), String.mk (chars.drop dotIndex.toNat))
    else (p, "")
  else (p, "")

/-- Models `derive_output_path` (source lines 65-67). -/
def derive_output_path (input_path : String) (fmt : String) : String :=
  (splitext input_path).1 ++ "." ++ fmt

/-- The three-segment input of the spec's writer examples. -/
def demoSegs : List Segment := [⟨0, 1, "hello"⟩, ⟨1, 2, "  "⟩, ⟨2, 3, "world"⟩]

/-- A JSON value, the shape handled by the Python `json` library (only the
constructors this program produces or reads back). -/
inductive Json where
  | num : ℚ → Json
  | str : String → Json
  | arr : List Json → Json
  | obj : List (String × Json) → Json

/-- The JSON object a segment dict denotes; key order is the dict insertion
order `start`, `end`, `text` (source lines 84 and 96). -/
def segToObj (seg : Segment) : Json :=
  .obj [("start", .num seg.start), ("end", .num seg.«end»), ("text", .str seg.text)]

/-- The JSON value `json.dump(segments, ...)` on source line 39 encodes:
the array of the segment objects, in order. -/
def json_dump (segments : List Segment) : Json :=
  .arr (segments.map segToObj)

/-- Reading one segment dict back, as the consumer of the written file
(`json.loads`) presents it. -/
def segOfJson : Json → Option Segment
  | .obj [("start", .num a), ("end", .num b), ("text", .str t)] => some ⟨a, b, t⟩
  | _ => none

/-- Reading back a list of segment dicts, failing on any malformed entry. -/
def decodeSegs : List Json → Option (List Segment)
  | [] => some []
  | j :: rest =>
    match segOfJson j, decodeSegs rest with
    | some s, some l => some (s :: l)
    | _, _ => none

/-- Decoding the written JSON document as a segment sequence. -/
def json_loads_segments : Json → Option (List Segment)
  | .arr js => decodeSegs js
  | _ => none

/-- Concatenation of a list of strings in order. -/
def concatStrings : List String → String
  | [] => ""
  | s :: rest => s ++ concatStrings rest

/-- Decimal digits of the fractional part `f ∈ [0,1)`, one digit per step;
the fuel bounds the expansion (for the binary fractions a Python float can
hold, `den` steps always suffice, so the expansion is exact). -/
def fracDigits : ℕ → ℚ → String
  | 0, _ => ""
  | fuel + 1, f =>
    if f = 0 then ("")
    else
      let d := (f * 10).floor.toNat
      Nat.repr d ++ fracDigits fuel (f * 10 - (d : ℚ))

/-- The decimal text the `json` library writes for a float: integer part,
a dot, and the exact fractional digits (`0` when the value is whole),
e.g. `0.0`, `0.5`, `3661.5`. -/
def renderNum (q : ℚ) : String :=
  let sign := if q < 0 then ("-") else ("")
  let a := if q < 0 then -q else q
  let ip := a.floor.toNat
  let fd := fracDigits (a.den + 1) (a - (ip : ℚ))
  sign ++ Nat.repr ip ++ "." ++ (if fd = "" then ("0") else fd)

/-- One lowercase hex digit. -/
def hexDigitChar (n : ℕ) : Char :=
  if n < 10 then Char.ofNat (48 + n) else Char.ofNat (87 + n)

/-- Four lowercase hex digits, the body of a `\uXXXX` escape. -/
def hex4 (n : ℕ) : String :=
  String.mk [hexDigitChar (n / 4096 % 16), hexDigitChar (n / 256 % 16),
    hexDigitChar (n / 16 % 16), hexDigitChar (n % 16)]

/-- How `json.dump(..., ensure_ascii=False)` writes one character of a
string: only the quote, the backslash and control characters are escaped;
everything else, non-ASCII included, is written verbatim. -/
def escapeChar (c : Char) : String :=
  if c = '"' then ("\\\"")
  else if c = '\\' then ("\\\\")
  else if c = '\n' then ("\\n")
  else if c = '\t' then ("\\t")
  else if c = '\r' then ("\\r")
  else if c = Char.ofNat 8 then ("\\b")
  else if c = Char.ofNat 12 then ("\\f")
  else if c.toNat < 32 then ("\\u") ++ hex4 c.toNat
  else String.mk [c]

/-- A JSON string literal with `ensure_ascii=False`. -/
def renderString (s : String) : String :=
  "\"" ++ concatStrings (s.data.map escapeChar) ++ "\""

/-- One segment object as `json.dump(segments, f, ensure_ascii=False,
indent=2)` writes it inside the top-level array (item indent 2, key
indent 4). -/
def renderSegment (seg : Segment) : String :=
  "  \x7b\n    \"start\": " ++ renderNum seg.start ++ ",\n    \"end\": " ++
    renderNum seg.«end» ++ ",\n    \"text\": " ++ renderString seg.text ++ "\n  \x7d"

/-- The full file content `write_json` (source lines 37-39) produces:
the 2-space-indented array of segment objects. -/
def renderSegments : List Segment → String
  | [] => "[]"
  | segs => "[\n" ++ String.intercalate ",\n" (segs.map renderSegment) ++ "\n]"

/-- Output format chosen by `--format`; argparse restricts it to these
four choices (source lines 116-121). -/
inductive Fmt
  | txt
  | srt
  | vtt
  | json
deriving DecidableEq

/-- The format's file extension, the string `args.format` holds. -/
def Fmt.ext : Fmt → String
  | .txt => "txt"
  | .srt => "srt"
  | .vtt => "vtt"
  | .json => "json"

/-- The dispatch on `args.format` (source lines 166-173): the content the
chosen serializer writes to `out_path`. -/
def dispatchWrite (fmt : Fmt) (segments : List Segment) : String :=
  match fmt with
  | .txt => write_txt segments
  | .json => renderSegments segments
  | .srt => write_srt segments
  | .vtt => write_vtt segments

/-- Is `needle` a contiguous substring of the second list? Python's `in`
on strings. -/
def infixOf (needle : List Char) : List Char → Bool
  | [] => needle.isEmpty
  | h :: t => needle.isPrefixOf (h :: t) || infixOf needle t

/-- Python `needle in hay` for strings. -/
def containsSubstr (hay needle : String) : Bool := infixOf needle.data hay.data

/-- The marker the driver greps the primary failure for
(source line 148). -/
def noModuleNeedle : String := "No module named"

/-- Python `opt or default` for an optional string: `None` and the empty
string are both falsy, so either yields the default. -/
def orDefault (o : Option String) (d : String) : String :=
  match o with
  | none => d
  | some s => if s = "" then d else s

/-- The inputs `main` (source lines 101-176) reacts to: the parsed
arguments that matter to the driver, whether the filesystem and `PATH`
checks pass, and each backend's outcome when invoked (`Except.error e`
stands for a raised exception with `str(err) = e`). `--model` and
`--language` are passed through to the opaque backends only. -/
structure Env where
  inputExists : Bool
  ffmpegOnPath : Bool
  input : String
  output : Option String
  format : Fmt
  fasterWhisper : Except String (List Segment)
  openaiWhisper : Except String (List Segment)

/-- The observable result of `main`: the process exit code, the path the
final `print(f"Wrote ...")` reports (`none` when it is not reached), and
the file written (path and content). -/
structure Outcome where
  exitCode : ℕ
  reported : Option String
  wrote : Option (String × String)
deriving DecidableEq

/-- Source line 141: `out_path = args.output or derive_output_path(...)`. -/
def mainOutPath (env : Env) : String :=
  orDefault env.output (derive_output_path env.input env.format.ext)

/-- Models `main` (source lines 101-176) as a function of its environment:
the guard chain, the backend fallback and the final write/report. -/
def mainModel (env : Env) : Outcome :=
  if env.inputExists = false then ⟨2, none, none⟩
  else if env.ffmpegOnPath = false then ⟨2, none, none⟩
  else
    let out_path := mainOutPath env
    match env.fasterWhisper with
    | .ok segments => ⟨0, some out_path, some (out_path, dispatchWrite env.format segments)⟩
    | .error err =>
      if containsSubstr err noModuleNeedle then
        match env.openaiWhisper with
        | .ok segments =>
          ⟨0, some out_path, some (out_path, dispatchWrite env.format segments)⟩
        | .error _ => ⟨1, none, none⟩
      else ⟨1, none, none⟩

/-- The two-segment input (one with non-ASCII text, one with empty text)
used to exhibit the structured writer's byte-level output. -/
def jsonDemoSegs : List Segment := [⟨0, 1/2, "héllo"⟩, ⟨1/2, 1, ""⟩]

/-- An environment where the primary backend raises the module-not-found
failure and the secondary backend succeeds. -/
def fallbackEnv : Env :=
  ⟨true, true, "a.mp3", none, Fmt.txt,
    Except.error ("No module named 'faster_whisper'"), Except.ok demoSegs⟩

/-- The comma of the SubRip timestamp convention. -/
def srtSep : String := ","

/-- The period of the WebVTT timestamp convention. -/
def vttSep : String := "."

/-- Follows the spec's words for the timestamp contract (spec 4.1), for
comparison with the code's formatters: clamp the input at zero, decompose
the clamped value itself into hours, minutes, whole seconds and truncated
milliseconds, and render zero-padded around the given separator. -/
def specFormatTs (sep : String) (seconds : ℚ) : String :=
  let t := max 0 seconds
  let total : ℕ := (⌊t⌋).toNat
  let millis : ℕ := (⌊(t - (total : ℚ)) * 1000⌋).toNat
  pad2 (total / 3600) ++ ":" ++ pad2 (total % 3600 / 60) ++ ":" ++
    pad2 (total % 60) ++ sep ++ pad3 millis

/-- The hour component both formatters render for a given input. -/
def tsHours (seconds : ℚ) : ℕ := (tdTotalSeconds seconds).floor.toNat / 3600

/-- Follows the spec's words for the plain-text output: the concatenation,
in order, of each non-empty trimmed text followed by one newline. -/
def txtSpec (segments : List Segment) : String :=
  concatStrings (segments.filterMap fun seg =>
    if seg.text.trim = "" then none else some (seg.text.trim ++ "\n"))

/-- One SubRip block carrying index `idx`. -/
def srtBlockAt (idx : ℕ) (seg : Segment) : String :=
  Nat.repr idx ++ "\n" ++ format_ts_srt seg.start ++ " --> " ++
    format_ts_srt seg.«end» ++ "\n" ++ seg.text.trim ++ "\n\n"

/-- Follows the (amended) spec reading of the SubRip output: each segment
is numbered by its 1-based position in the input sequence, and the blocks
of the empty-trimmed-text segments are dropped, their indices with them. -/
def srtSpecGaps (segments : List Segment) : String :=
  concatStrings ((List.enumFrom 1 segments).filterMap fun p =>
    if p.2.text.trim = "" then none else some (srtBlockAt p.1 p.2))

/-- One WebVTT block: timestamps with arrow, text, blank separator. -/
def vttBlock (seg : Segment) : String :=
  format_ts_vtt seg.start ++ " --> " ++ format_ts_vtt seg.«end» ++ "\n" ++
    seg.text.trim ++ "\n\n"

/-- Follows the spec's words for the WebVTT output: the fixed header line
and a blank line, then the blocks of the non-empty segments in order. -/
def vttSpec (segments : List Segment) : String :=
  "WEBVTT\n\n" ++ concatStrings (segments.filterMap fun seg =>
    if seg.text.trim = "" then none else some (vttBlock seg))

/-- The executable floor agrees with the Mathlib floor. -/
lemma ratFloor_eq (q : ℚ) : q.floor = ⌊q⌋ := by
  rw [Rat.floor_def', Rat.floor_def]

/-- Python's binary `max` is the lattice `max`. -/
lemma pymax_eq_max (a b : ℚ) : pymax a b = max a b := by
  unfold pymax
  rcases lt_or_le a b with h | h
  · rw [if_pos h, max_eq_right h.le]
  · rw [if_neg (not_lt.mpr h), max_eq_left h]

/-- Rounding an integer changes nothing. -/
lemma roundHalfEven_intCast (n : ℤ) : roundHalfEven (n : ℚ) = n := by
  unfold roundHalfEven
  simp only [ratFloor_eq, Int.floor_intCast, sub_self]
  norm_num

/-- Rounding keeps nonnegative values nonnegative. -/
lemma roundHalfEven_nonneg {q : ℚ} (h : 0 ≤ q) : 0 ≤ roundHalfEven q := by
  unfold roundHalfEven
  simp only [ratFloor_eq]
  have h0 : (0 : ℤ) ≤ ⌊q⌋ := Int.floor_nonneg.mpr h
  split_ifs <;> omega

/-- The clamped, microsecond-rounded value is never negative. -/
lemma tdTotalSeconds_nonneg (q : ℚ) : 0 ≤ tdTotalSeconds q := by
  unfold tdTotalSeconds
  have h1 : (0 : ℚ) ≤ pymax 0 q := by
    rw [pymax_eq_max]
    exact le_max_left 0 q
  have h2 : (0 : ℚ) ≤ pymax 0 q * 1000000 := by positivity
  have h3 := roundHalfEven_nonneg h2
  apply div_nonneg _ (by norm_num)
  exact_mod_cast h3

/-- On values that are a whole number of microseconds, the `timedelta`
round trip is the identity: `total_seconds()` returns the clamped input. -/
lemma tdTotalSeconds_of_den_one {q : ℚ} (h : (pymax 0 q * 1000000).den = 1) :
    tdTotalSeconds q = pymax 0 q := by
  unfold tdTotalSeconds
  have hx : (((pymax 0 q * 1000000).num : ℤ) : ℚ) = pymax 0 q * 1000000 :=
    (Rat.den_eq_one_iff _).mp h
  rw [show pymax 0 q * 1000000 = (((pymax 0 q * 1000000).num : ℤ) : ℚ) from hx.symm,
    roundHalfEven_intCast, hx]
  exact mul_div_cancel_right₀ _ (by norm_num)

/-- The plain-text writer emits exactly the ordered concatenation of the
non-empty trimmed lines. -/
lemma write_txt_eq (l : List Segment) : write_txt l = txtSpec l := by
  induction l with
  | nil => simp [write_txt, txtSpec, concatStrings]
  | cons seg rest ih =>
    by_cases h : seg.text.trim = ""
    · simp only [write_txt, txtSpec, List.filterMap_cons, h, if_pos] at ih ⊢
      simpa [h] using ih
    · simp only [write_txt, txtSpec, List.filterMap_cons, h, if_neg] at ih ⊢
      simp [h, ih, concatStrings]

/-- The SubRip loop emits, for every non-empty segment, the block carrying
its `enumerate` index. -/
lemma srtLoop_eq (l : List Segment) : ∀ n : ℕ,
    srtLoop n l = concatStrings ((List.enumFrom n l).filterMap fun p =>
      if p.2.text.trim = "" then none else some (srtBlockAt p.1 p.2)) := by
  induction l with
  | nil => intro n; simp [srtLoop, List.enumFrom, concatStrings]
  | cons seg rest ih =>
    intro n
    by_cases h : seg.text.trim = ""
    · simp [srtLoop, List.enumFrom, h, ih]
    · simp [srtLoop, List.enumFrom, h, ih n.succ, srtBlockAt, concatStrings]

/-- The WebVTT loop emits exactly the non-empty blocks in order. -/
lemma vttLoop_eq (l : List Segment) :
    vttLoop l = concatStrings (l.filterMap fun seg =>
      if seg.text.trim = "" then none else some (vttBlock seg)) := by
  induction l with
  | nil => simp [vttLoop, concatStrings]
  | cons seg rest ih =>
    by_cases h : seg.text.trim = ""
    · simp [vttLoop, h, ih]
    · simp [vttLoop, h, ih, vttBlock, concatStrings]

/-- Once the `timedelta` round trip is the identity, the SubRip formatter
is exactly the spec's clamp-and-decompose contract with the comma. -/
lemma format_ts_srt_of_den_one {q : ℚ} (h : (pymax 0 q * 1000000).den = 1) :
    format_ts_srt q = specFormatTs srtSep q := by
  have ht := tdTotalSeconds_of_den_one h
  have hm := pymax_eq_max 0 q
  rw [hm] at ht
  simp only [format_ts_srt, specFormatTs, ratFloor_eq, ht, srtSep]

/-- Same for the WebVTT formatter and the period. -/
lemma format_ts_vtt_of_den_one {q : ℚ} (h : (pymax 0 q * 1000000).den = 1) :
    format_ts_vtt q = specFormatTs vttSep q := by
  have ht := tdTotalSeconds_of_den_one h
  have hm := pymax_eq_max 0 q
  rw [hm] at ht
  simp only [format_ts_vtt, specFormatTs, ratFloor_eq, ht, vttSep]

/-- Zero padding yields the larger of the width and the raw length. -/
lemma zfill_length (w : ℕ) (s : String) : (zfill w s).length = max w s.length := by
  unfold zfill
  rw [String.length_append]
  show (List.replicate (w - s.length) '0').length + s.length = max w s.length
  rw [List.length_replicate]
  omega

/-- Decimal length of numbers below one hundred. -/
lemma repr_len_le_two : ∀ n : ℕ, n < 100 → (Nat.repr n).length ≤ 2 := by decide

set_option maxRecDepth 4000 in
/-- Decimal length of numbers below one thousand. -/
lemma repr_len_le_three : ∀ n : ℕ, n < 1000 → (Nat.repr n).length ≤ 3 := by decide

/-- Two-digit fields render at exactly width two below one hundred. -/
lemma pad2_length {n : ℕ} (h : n < 100) : (pad2 n).length = 2 := by
  unfold pad2
  rw [zfill_length]
  have := repr_len_le_two n h
  omega

/-- The millisecond field renders at exactly width three below 1000. -/
lemma pad3_length {n : ℕ} (h : n < 1000) : (pad3 n).length = 3 := by
  unfold pad3
  rw [zfill_length]
  have := repr_len_le_three n h
  omega

/-- A rendered clock string has twelve characters whenever every field is
in range and the separator is a single character. -/
lemma clock_length {h m s ms : ℕ} (hh : h < 100) (hm : m < 100) (hs : s < 100)
    (hms : ms < 1000) (sep : String) (hsep : sep.length = 1) :
    (pad2 h ++ ":" ++ pad2 m ++ ":" ++ pad2 s ++ sep ++ pad3 ms).length = 12 := by
  have hcolon : (":" : String).length = 1 := rfl
  simp only [String.length_append, pad2_length hh, pad2_length hm, pad2_length hs,
    pad3_length hms, hsep, hcolon]

/-- The millisecond component is always below 1000. -/
lemma millis_lt (q : ℚ) :
    ((tdTotalSeconds q - ((tdTotalSeconds q).floor.toNat : ℚ)) * 1000).floor.toNat < 1000 := by
  have h0 : 0 ≤ tdTotalSeconds q := tdTotalSeconds_nonneg q
  have hfl : (((tdTotalSeconds q).floor.toNat : ℤ) : ℚ) = ((⌊tdTotalSeconds q⌋ : ℤ) : ℚ) := by
    rw [ratFloor_eq]
    norm_cast
    exact Int.toNat_of_nonneg (Int.floor_nonneg.mpr h0)
  have h1 : tdTotalSeconds q - ((tdTotalSeconds q).floor.toNat : ℚ) < 1 := by
    push_cast at hfl ⊢
    rw [hfl]
    have := Int.fract_lt_one (tdTotalSeconds q)
    rw [Int.fract] at this
    linarith
  have h2 : (tdTotalSeconds q - ((tdTotalSeconds q).floor.toNat : ℚ)) * 1000 < 1000 := by
    nlinarith
  have h3 : ((tdTotalSeconds q - ((tdTotalSeconds q).floor.toNat : ℚ)) * 1000).floor < 1000 := by
    rw [ratFloor_eq]
    exact Int.floor_lt.mpr (by exact_mod_cast h2)
  omega

/-- Reading back the object written for a segment recovers the segment. -/
lemma segOfJson_segToObj (s : Segment) : segOfJson (segToObj s) = some s := rfl

/-- Reading back a written list of segment objects recovers the list. -/
lemma decodeSegs_map (l : List Segment) : decodeSegs (l.map segToObj) = some l := by
  induction l with
  | nil => rfl
  | cons s rest ih => simp [decodeSegs, segOfJson_segToObj, ih]

/-- C1: the claim states the SubRip index is assigned after the
empty-text filter, giving gap-free indices `1` and `2` on the input
`[hello, "  ", world]`. The code assigns the index with `enumerate`
before the filter, so the second emitted block carries index `3`,
not `2`: the claimed output is refuted at this input. -/
theorem c1_srt_gapfree_counterexample :
    write_srt demoSegs ≠
      "1\n00:00:00,000 --> 00:00:01,000\nhello\n\n2\n00:00:02,000 --> 00:00:03,000\nworld\n\n"
    ∧ write_srt demoSegs =
      "1\n00:00:00,000 --> 00:00:01,000\nhello\n\n3\n00:00:02,000 --> 00:00:03,000\nworld\n\n" := by
  have h : write_srt demoSegs =
      "1\n00:00:00,000 --> 00:00:01,000\nhello\n\n3\n00:00:02,000 --> 00:00:03,000\nworld\n\n" := by
    with_unfolding_all rfl
  refine ⟨?_, h⟩
  rw [h]
  decide

/-- C1 (amended): the SubRip serializer numbers each segment by its
1-based position in the input sequence, assigned before the empty-text
filter; skipped segments leave index gaps, so the sample input yields
indices `1` and `3`. -/
theorem c1_srt_index_gaps :
    (∀ segs : List Segment, write_srt segs = srtSpecGaps segs)
    ∧ write_srt demoSegs =
      "1\n00:00:00,000 --> 00:00:01,000\nhello\n\n3\n00:00:02,000 --> 00:00:03,000\nworld\n\n" := by
  constructor
  · intro segs
    unfold write_srt srtSpecGaps
    rw [srtLoop_eq]
  · with_unfolding_all rfl

/-- C4: the claim states that for every float input the milliseconds are
truncated, not rounded, from the fractional remainder of the clamped
value itself. The code first stores the clamped value in a `timedelta`,
which rounds it to a whole number of microseconds (ties to even), and
only then truncates: at the input `0.0009999995` seconds (999.9995 µs)
the rounding carries up to a full millisecond, so the program renders
`00:00:00,001` where the claimed pure truncation yields `00:00:00,000`.
The claim as stated is therefore false at this input. -/
theorem c4_truncation_counterexample :
    format_ts_srt (9999995/10000000000) ≠ specFormatTs srtSep (9999995/10000000000)
    ∧ format_ts_srt (9999995/10000000000) = "00:00:00,001"
    ∧ specFormatTs srtSep (9999995/10000000000) = "00:00:00,000"
    ∧ format_ts_vtt (9999995/10000000000) = "00:00:00.001" := by
  have h1 : format_ts_srt (9999995/10000000000) = "00:00:00,001" := by
    with_unfolding_all rfl
  have h2 : specFormatTs srtSep (9999995/10000000000) = "00:00:00,000" := by
    with_unfolding_all rfl
  refine ⟨?_, h1, h2, by with_unfolding_all rfl⟩
  rw [h1, h2]
  decide

/-- C4 (amended): for every input, both formatters clamp negative input
to zero, round the clamped value to a whole number of microseconds (ties
to even, the `timedelta` storage step), and decompose that rounded value
into hours, minutes, whole seconds and truncated milliseconds around
their separator; on every input that is already a whole number of
microseconds this coincides with the claimed pure truncation of the
clamped input itself. Clamping holds for every nonpositive input, and
the spec's samples `0`, `3661.5` and `-5` evaluate as claimed. -/
theorem c4_timestamp_contract :
    (∀ q : ℚ, format_ts_srt q = specFormatTs srtSep (tdTotalSeconds q)
      ∧ format_ts_vtt q = specFormatTs vttSep (tdTotalSeconds q))
    ∧ (∀ q : ℚ, (pymax 0 q * 1000000).den = 1 →
      format_ts_srt q = specFormatTs srtSep q ∧ format_ts_vtt q = specFormatTs vttSep q)
    ∧ (∀ q : ℚ, q ≤ 0 →
      format_ts_srt q = "00:00:00,000" ∧ format_ts_vtt q = "00:00:00.000")
    ∧ format_ts_srt 0 = "00:00:00,000"
    ∧ format_ts_srt (7323/2) = "01:01:01,500"
    ∧ format_ts_srt (-5) = "00:00:00,000"
    ∧ format_ts_vtt 0 = "00:00:00.000"
    ∧ format_ts_vtt (7323/2) = "01:01:01.500" := by
  refine ⟨fun q => ?_,
    fun q h => ⟨format_ts_srt_of_den_one h, format_ts_vtt_of_den_one h⟩,
    fun q h => ?_, by with_unfolding_all rfl, by with_unfolding_all rfl,
    by with_unfolding_all rfl, by with_unfolding_all rfl, by with_unfolding_all rfl⟩
  case refine_1 =>
    have hn := tdTotalSeconds_nonneg q
    constructor
    · simp only [format_ts_srt, specFormatTs, ratFloor_eq, max_eq_right hn, srtSep]
    · simp only [format_ts_vtt, specFormatTs, ratFloor_eq, max_eq_right hn, vttSep]
  have hp : pymax 0 q = 0 := by
    rw [pymax_eq_max]
    exact max_eq_left h
  have ht : tdTotalSeconds q = 0 := by
    unfold tdTotalSeconds
    rw [hp, zero_mul, show (0 : ℚ) = ((0 : ℤ) : ℚ) by norm_cast, roundHalfEven_intCast]
    norm_num
  constructor
  · simp only [format_ts_srt, ht]
    with_unfolding_all rfl
  · simp only [format_ts_vtt, ht]
    with_unfolding_all rfl

/-- Witness for C4 at the input `3661.5`. -/
theorem c4_timestamp_contract_witness :
    (pymax 0 (7323/2) * 1000000).den = 1
    ∧ format_ts_srt (7323/2) = specFormatTs srtSep (7323/2)
    ∧ (-5 : ℚ) ≤ 0 ∧ format_ts_srt (-5) = "00:00:00,000" :=
  ⟨by with_unfolding_all rfl,
    (c4_timestamp_contract.2.1 (7323/2) (by with_unfolding_all rfl)).1,
    by norm_num,
    (c4_timestamp_contract.2.2.1 (-5) (by norm_num)).1⟩

/-- C5: for every nonnegative input whose hour component is below 100,
both formatters render exactly twelve characters. -/
theorem c5_clock_width : ∀ q : ℚ, 0 ≤ q → tsHours q < 100 →
    (format_ts_srt q).length = 12 ∧ (format_ts_vtt q).length = 12 := by
  intro q hq hh
  unfold tsHours at hh
  constructor
  · simp only [format_ts_srt]
    exact clock_length hh (by omega) (by omega) (millis_lt q) _ rfl
  · simp only [format_ts_vtt]
    exact clock_length hh (by omega) (by omega) (millis_lt q) _ rfl

/-- Witness for C5 at the input `3661.5`. -/
theorem c5_clock_width_witness :
    (0 : ℚ) ≤ 7323/2 ∧ tsHours (7323/2) < 100 ∧ (format_ts_srt (7323/2)).length = 12 := by
  have h1 : (0 : ℚ) ≤ 7323/2 := by norm_num
  have h2 : tsHours (7323/2) < 100 := by
    have h : tsHours (7323/2) = 1 := by with_unfolding_all rfl
    omega
  exact ⟨h1, h2, (c5_clock_width (7323/2) h1 h2).1⟩

/-- C6: the plain-text serializer writes exactly the concatenation, in
order, of each segment's trimmed text plus one newline, dropping the
segments whose trimmed text is empty; on the sample input the content is
exactly `hello\nworld\n`. -/
theorem c6_plain_text :
    (∀ segs : List Segment, write_txt segs = txtSpec segs)
    ∧ write_txt demoSegs = "hello\nworld\n" :=
  ⟨write_txt_eq, by with_unfolding_all rfl⟩

/-- C7: decoding the structured output recovers the original segment
sequence exactly, empty-text segments included; and the rendered file
text uses 2-space indentation with non-ASCII text verbatim, as the
concrete non-ASCII sample shows byte for byte. -/
theorem c7_json_roundtrip :
    (∀ segs : List Segment, json_loads_segments (json_dump segs) = some segs)
    ∧ renderSegments jsonDemoSegs =
      "[\n  \x7b\n    \"start\": 0.0,\n    \"end\": 0.5,\n    \"text\": \"héllo\"\n  \x7d,\n  \x7b\n    \"start\": 0.5,\n    \"end\": 1.0,\n    \"text\": \"\"\n  \x7d\n]" := by
  constructor
  · intro segs
    simp [json_dump, json_loads_segments, decodeSegs_map]
  · with_unfolding_all rfl

/-- C8: the WebVTT serializer writes exactly the `WEBVTT` header line, a
blank line, and then, per non-empty segment in order, the
period-convention timestamp line with the arrow, the trimmed text and a
blank separator, with no numeric index and only `\n` line endings. -/
theorem c8_vtt_output :
    (∀ segs : List Segment, write_vtt segs = vttSpec segs)
    ∧ write_vtt demoSegs =
      "WEBVTT\n\n00:00:00.000 --> 00:00:01.000\nhello\n\n00:00:02.000 --> 00:00:03.000\nworld\n\n" := by
  constructor
  · intro segs
    unfold write_vtt vttSpec
    rw [vttLoop_eq]
  · with_unfolding_all rfl

/-- C2: the driver exits with `2` exactly when the input path is missing
or `ffmpeg` is not on the `PATH`; with `1` exactly when (past the guards)
the primary backend fails for a reason other than module-not-found, or
fails with module-not-found and the secondary fails too; and with `0`
exactly when transcription succeeded, which is also exactly when the
chosen output path is reported. -/
theorem c2_exit_codes : ∀ env : Env,
    ((mainModel env).exitCode = 2 ↔
      env.inputExists = false ∨ env.ffmpegOnPath = false)
    ∧ ((mainModel env).exitCode = 1 ↔
      env.inputExists = true ∧ env.ffmpegOnPath = true ∧
        ∃ e, env.fasterWhisper = Except.error e ∧
          (containsSubstr e noModuleNeedle = false ∨
            ∃ e2, env.openaiWhisper = Except.error e2))
    ∧ ((mainModel env).exitCode = 0 ↔
      env.inputExists = true ∧ env.ffmpegOnPath = true ∧
        ((∃ segs, env.fasterWhisper = Except.ok segs) ∨
          ∃ e, env.fasterWhisper = Except.error e ∧
            containsSubstr e noModuleNeedle = true ∧
            ∃ segs, env.openaiWhisper = Except.ok segs))
    ∧ ((mainModel env).exitCode = 0 ↔
      (mainModel env).reported = some (mainOutPath env)) := by
  intro env
  obtain ⟨inp, ff, input, output, fmt, fw, ow⟩ := env
  cases inp with
  | false => simp [mainModel]
  | true =>
    cases ff with
    | false => simp [mainModel]
    | true =>
      cases fw with
      | ok segs => simp [mainModel]
      | error e =>
        cases hc : containsSubstr e noModuleNeedle with
        | true =>
          cases ow with
          | ok segs2 => simp [mainModel, hc]
          | error e2 => simp [mainModel, hc]
        | false => simp [mainModel, hc]

/-- C3: past the guards, when the primary backend fails, the secondary is
attempted if and only if the failure text contains the module-not-found
marker: in that case the overall outcome is exactly the secondary's
outcome (success, or exit `1` when it also fails); in every other case
the driver exits `1` immediately and the outcome does not depend on the
secondary backend at all. -/
theorem c3_fallback_policy : ∀ (env : Env) (e : String),
    env.inputExists = true → env.ffmpegOnPath = true →
    env.fasterWhisper = Except.error e →
    ((containsSubstr e noModuleNeedle = true →
      (∀ segs, env.openaiWhisper = Except.ok segs →
        mainModel env = ⟨0, some (mainOutPath env),
          some (mainOutPath env, dispatchWrite env.format segs)⟩)
      ∧ ∀ e2, env.openaiWhisper = Except.error e2 →
          mainModel env = ⟨1, none, none⟩)
    ∧ (containsSubstr e noModuleNeedle = false →
      mainModel env = ⟨1, none, none⟩
      ∧ ∀ o, mainModel {env with openaiWhisper := o} = mainModel env)) := by
  intro env e hinp hff hfw
  constructor
  · intro hc
    constructor
    · intro segs how
      simp [mainModel, hinp, hff, hfw, hc, how, mainOutPath]
    · intro e2 how
      simp [mainModel, hinp, hff, hfw, hc, how]
  · intro hc
    constructor
    · simp [mainModel, hinp, hff, hfw, hc]
    · intro o
      simp [mainModel, hinp, hff, hfw, hc, mainOutPath]

/-- Witness for C3: with the primary raising a module-not-found failure
and the secondary succeeding, the driver succeeds with the secondary's
segments. -/
theorem c3_fallback_policy_witness :
    fallbackEnv.inputExists = true ∧ fallbackEnv.ffmpegOnPath = true ∧
    fallbackEnv.fasterWhisper = Except.error ("No module named 'faster_whisper'") ∧
    containsSubstr ("No module named 'faster_whisper'") noModuleNeedle = true ∧
    mainModel fallbackEnv = ⟨0, some (mainOutPath fallbackEnv),
      some (mainOutPath fallbackEnv, dispatchWrite fallbackEnv.format demoSegs)⟩ := by
  refine ⟨rfl, rfl, rfl, by with_unfolding_all rfl, ?_⟩
  exact ((c3_fallback_policy fallbackEnv ("No module named 'faster_whisper'")
    rfl rfl rfl).1 (by with_unfolding_all rfl)).1 demoSegs rfl

/-- C9: the output destination is the explicit `--output` value whenever
a non-empty one is given, and otherwise the input path with its extension
replaced by the requested format's extension; the derived path is always
the extension-stripped input plus a dot plus the format name, as the
concrete paths illustrate. -/
theorem c9_output_destination :
    (∀ s d : String, s ≠ "" → orDefault (some s) d = s)
    ∧ (∀ d : String, orDefault none d = d)
    ∧ (∀ p f : String, derive_output_path p f = (splitext p).1 ++ "." ++ f)
    ∧ derive_output_path ("audio.mp3") ("srt") = "audio.srt"
    ∧ derive_output_path ("a/b.c/notes") ("txt") = "a/b.c/notes.txt"
    ∧ derive_output_path ("x/archive.tar.gz") ("vtt") = "x/archive.tar.vtt" := by
  refine ⟨?_, fun d => rfl, fun p f => rfl, by with_unfolding_all rfl,
    by with_unfolding_all rfl, by with_unfolding_all rfl⟩
  intro s d h
  simp [orDefault, h]

/-- Witness for C9: a non-empty explicit output path wins over the
derived default. -/
theorem c9_output_destination_witness :
    ("out.srt" : String) ≠ "" ∧ orDefault (some ("out.srt")) ("audio.txt") = "out.srt" :=
  ⟨by decide, c9_output_destination.1 "out.srt" "audio.txt" (by decide)⟩

/-- C10: an explicit `--output` equal to the empty string is falsy in the
driver's `args.output or ...` selection, so it behaves exactly like an
omitted `--output`: the derived path is used and the whole run is
indistinguishable from one with no override. -/
theorem c10_empty_output_ignored :
    (∀ d : String, orDefault (some "") d = d)
    ∧ (∀ env : Env,
      mainOutPath {env with output := some ""} = derive_output_path env.input env.format.ext)
    ∧ (∀ env : Env,
      mainModel {env with output := some ""} = mainModel {env with output := none}) := by
  refine ⟨fun d => rfl, fun env => rfl, fun env => rfl⟩
